import Mathlib

/-!
Shallow embedding of the command-dispatch and authorization core of
`src/py.py` (`UserStore`, `CommandRegistry`, `Dispatcher`, and the built-in
command handlers, in the registry state produced by `BotCreatorOS.__init__`),
together with theorems about the dispatch behaviour.

Modelling conventions:
* Python dicts keyed by strings become association lists, with `lookupKey`,
  `insertKey` and `eraseKey` mirroring `d.get(k)`, `d[k] = v` and `del d[k]`.
* `time.time()` is passed in explicitly as an integer-valued `now`; real time
  is monotone, which theorems state as an explicit hypothesis where needed.
* The fresh salt drawn by `os.urandom(16).hex()` inside
  `UserStore.set_password` is passed in explicitly as a `salt` argument;
  the real salt is a hex string, so theorems assume it contains no `'$'`.
* A Python exception propagating out of a function is modelled as
  `Except.error msg`.  `Dispatcher._execute_as` catches handler faults, so
  handlers return `Except` and the catch turns errors into
  `"error: " ++ msg` result strings.
* Disk persistence (`UserStore.save`) has no observable effect on the
  in-memory state modelled here and is dropped.
-/

/-! ### shlex.split

`Dispatcher.run` and `Dispatcher._execute_as` tokenize with `shlex.split`,
i.e. the `shlex` lexer in POSIX mode with `whitespace_split=True` and
comments disabled.  The states below mirror the lexer states of
`shlex.read_token`: `ws` is the inter-token state `' '`, `word` is `'a'`,
`squo`/`dquo` are inside single/double quotes, and `escW`/`escD` are the
backslash-escape states entered from word context and from inside double
quotes respectively.  Unbalanced quotes raise `ValueError("No closing
quotation")` and a trailing backslash raises
`ValueError("No escaped character")`; both are modelled as `Except.error`.
-/

inductive SState
  | ws | word | squo | dquo | escW | escD

/-- The `shlex` whitespace set `' \t\r\n'`. -/
def isShWS (c : Char) : Bool := c = ' ' || c = '\t' || c = '\r' || c = '\n'

/-- One step of the `shlex` lexer per input character; `tok` is the token
being accumulated, `quoted` records whether the current token saw a quote
(so that empty quoted tokens are still emitted), `acc` are emitted tokens. -/
def shlexCore : List Char → SState → String → Bool → List String →
    Except String (List String)
  | [], st, tok, quoted, acc =>
    match st with
    | .squo => .error "No closing quotation"
    | .dquo => .error "No closing quotation"
    | .escW => .error "No escaped character"
    | .escD => .error "No escaped character"
    | _ => if tok != "" || quoted then .ok (acc ++ [tok]) else .ok acc
  | c :: cs, st, tok, quoted, acc =>
    match st with
    | .ws =>
      if isShWS c then shlexCore cs .ws tok quoted acc
      else if c = '\'' then shlexCore cs .squo tok true acc
      else if c = '"' then shlexCore cs .dquo tok true acc
      else if c = '\\' then shlexCore cs .escW tok quoted acc
      else shlexCore cs .word (tok.push c) quoted acc
    | .word =>
      if isShWS c then
        if tok != "" || quoted then shlexCore cs .ws "" false (acc ++ [tok])
        else shlexCore cs .ws tok quoted acc
      else if c = '\'' then shlexCore cs .squo tok true acc
      else if c = '"' then shlexCore cs .dquo tok true acc
      else if c = '\\' then shlexCore cs .escW tok quoted acc
      else shlexCore cs .word (tok.push c) quoted acc
    | .squo =>
      if c = '\'' then shlexCore cs .word tok quoted acc
      else shlexCore cs .squo (tok.push c) quoted acc
    | .dquo =>
      if c = '"' then shlexCore cs .word tok quoted acc
      else if c = '\\' then shlexCore cs .escD tok quoted acc
      else shlexCore cs .dquo (tok.push c) quoted acc
    | .escW => shlexCore cs .word (tok.push c) quoted acc
    | .escD =>
      if c = '\\' || c = '"' then shlexCore cs .dquo (tok.push c) quoted acc
      else shlexCore cs .dquo ((tok.push '\\').push c) quoted acc

/-- `shlex.split(s)`. -/
def shlexSplit (s : String) : Except String (List String) :=
  shlexCore s.data .ws "" false []

/-! ### Python `int()`

`Dispatcher.run` parses the optional session TTL with `int(parts[4])`,
silently keeping the default on failure.  Python `int` on a string strips
surrounding whitespace, accepts an optional sign and base-10 digits with
single underscores between digits. -/

/-- Whitespace stripped by Python `str.strip()` (ASCII part). -/
def isPyWS (c : Char) : Bool :=
  c = ' ' || c = '\t' || c = '\n' || c = '\r' || c = '\x0b' || c = '\x0c'

/-- Strip leading and trailing whitespace. -/
def stripWS (cs : List Char) : List Char :=
  ((cs.dropWhile isPyWS).reverse.dropWhile isPyWS).reverse

def isDigitC (c : Char) : Bool := '0' ≤ c && c ≤ '9'

def digitVal (c : Char) : Nat := c.toNat - 48

/-- Digits after the first: an underscore must sit between two digits. -/
def pyDigitsAux : List Char → Nat → Option Nat
  | [], acc => some acc
  | ['_'], _ => none
  | '_' :: c :: cs, acc =>
    if isDigitC c then pyDigitsAux cs (acc * 10 + digitVal c) else none
  | c :: cs, acc =>
    if isDigitC c then pyDigitsAux cs (acc * 10 + digitVal c) else none

/-- A nonempty digit sequence with optional single underscores. -/
def pyDigits : List Char → Option Nat
  | [] => none
  | c :: cs => if isDigitC c then pyDigitsAux cs (digitVal c) else none

/-- Python `int(s)` on a string, `none` when `ValueError` would be raised. -/
def pyInt (s : String) : Option Int :=
  match stripWS s.data with
  | '+' :: rest => (pyDigits rest).map (fun n => (n : Int))
  | '-' :: rest => (pyDigits rest).map (fun n => -(n : Int))
  | rest => (pyDigits rest).map (fun n => (n : Int))

/-! ### String-keyed association maps (Python dicts) -/

/-- `d.get(k)`. -/
def lookupKey {α : Type} : List (String × α) → String → Option α
  | [], _ => none
  | (k, v) :: rest, key => if k = key then some v else lookupKey rest key

/-- `d[k] = v`: replace the value at an existing key in place, otherwise
append a new entry (dict insertion order). -/
def insertKey {α : Type} : List (String × α) → String → α → List (String × α)
  | [], key, v => [(key, v)]
  | (k, w) :: rest, key, v =>
    if k = key then (key, v) :: rest else (k, w) :: insertKey rest key v

/-- `del d[k]`: drop the entry at the key (dict keys are unique). -/
def eraseKey {α : Type} : List (String × α) → String → List (String × α)
  | [], _ => []
  | (k, w) :: rest, key => if k = key then rest else (k, w) :: eraseKey rest key

/-! ### hashing (`hash_password`, src/py.py lines 28-32)

`hash_password` uses `hashlib.sha256`, which is library code outside this
repository.  `sha256hex` below is modelled from the spec: §3 only requires
"a fixed cryptographic hash function" `H` with `hash = H(plaintext ++ salt)`;
the development relies only on the function being deterministic and its
hex-digest output (64 hex characters) containing no `'$'`. -/

/-- Lower-case hex digit for a nibble. -/
def hexChar (n : Nat) : Char :=
  if n < 10 then Char.ofNat (48 + n) else Char.ofNat (87 + n % 16)

/-- Modelled from the spec: stands in for `hashlib.sha256(..).hexdigest()`,
the fixed cryptographic hash function of §3.  Deterministic, and produces a
64-character hex string like the real digest. -/
def sha256hex (s : String) : String :=
  let v := s.data.foldl (fun a c => (a * 131 + c.toNat) % 2 ^ 64) 5381
  String.mk ((List.range 64).map (fun i => hexChar (v / 16 ^ i % 16)))

/-- `hash_password(plain, salt)` = `f"{salt}${h}"` with
`h = sha256((plain + salt).encode()).hexdigest()`.  The `salt=None` branch
(fresh `os.urandom(16).hex()`) is modelled by the caller passing the fresh
salt explicitly. -/
def hash_password (plain salt : String) : String :=
  salt ++ "$" ++ sha256hex (plain ++ salt)

/-- Python `str.split('$')` on the character list. -/
def splitD : List Char → List (List Char)
  | [] => [[]]
  | c :: cs =>
    if c = '$' then [] :: splitD cs
    else
      match splitD cs with
      | [] => [[c]]
      | t :: ts => (c :: t) :: ts

/-- Message of the `ValueError` raised by `salt, hashed = hp.split('$')`
when the split does not have exactly two parts. -/
def unpackMsg (n : Nat) : String :=
  if n < 2 then "not enough values to unpack (expected 2, got " ++ toString n ++ ")"
  else "too many values to unpack (expected 2)"

/-! ### UserStore (src/py.py lines 35-95) -/

/-- One stored user record: `{"perms": [...], "password": hashed-or-None}`. -/
structure UserRec where
  perms : List String
  password : Option String

def Store := List (String × UserRec)

/-- `UserStore.ensure_user`. -/
def ensure_user (users : Store) (username : String) : Store :=
  match lookupKey users username with
  | some _ => users
  | none => insertKey users username ⟨[], none⟩

/-- `UserStore.set_password` with the fresh random salt made explicit. -/
def set_password (users : Store) (username plain salt : String) : Store :=
  match lookupKey (ensure_user users username) username with
  | some r =>
    insertKey (ensure_user users username) username
      { r with password := some (hash_password plain salt) }
  | none => ensure_user users username

/-- `UserStore.check_password`; the `hp.split('$')` unpack can raise. -/
def check_password (users : Store) (username plain : String) : Except String Bool :=
  match lookupKey users username with
  | none => .ok false
  | some r =>
    match r.password with
    | none => .ok false
    | some hp =>
      match splitD hp.data with
      | [s, _] => .ok (hash_password plain (String.mk s) == hp)
      | l => .error (unpackMsg l.length)

/-- `UserStore.add_perm`. -/
def add_perm (users : Store) (username perm : String) : Store :=
  match lookupKey (ensure_user users username) username with
  | some r =>
    if perm ∈ r.perms then ensure_user users username
    else insertKey (ensure_user users username) username { r with perms := r.perms ++ [perm] }
  | none => ensure_user users username

/-- `UserStore.remove_perm`; `list.remove` drops the first occurrence. -/
def remove_perm (users : Store) (username perm : String) : Store :=
  match lookupKey (ensure_user users username) username with
  | some r =>
    if perm ∈ r.perms then
      insertKey (ensure_user users username) username { r with perms := r.perms.erase perm }
    else ensure_user users username
  | none => ensure_user users username

/-- `UserStore.has_perm`: wildcard `'*'` grants everything. -/
def has_perm (users : Store) (username perm : String) : Bool :=
  match lookupKey users username with
  | none => false
  | some r => decide ("*" ∈ r.perms) || decide (perm ∈ r.perms)

/-- `UserStore.list_users`. -/
def list_users (users : Store) : List String := users.map Prod.fst

/-- `UserStore.list_perms`. -/
def list_perms (users : Store) (username : String) : List String :=
  match lookupKey users username with
  | none => []
  | some r => r.perms

/-! ### Command registry and handlers (src/py.py lines 98-123, 207-262, 722-736)

A handler receives the acting user (`ctx.user`), the positional string
arguments, the user store it may mutate through the module-level
`dispatcher`, and the salt for any fresh-password draw; it returns the new
store with the result string, or an error modelling a raised exception
(arity `TypeError`s included, with CPython's messages). -/

def Handler := String → List String → Store → String → Except String (Store × String)

structure CmdEntry where
  fn : Handler
  perm : Option String

/-- CPython message for too many positional arguments. -/
def arityTakes (fname : String) (takes given : Nat) : String :=
  fname ++ "() takes " ++ toString takes ++ " positional argument" ++
    (if takes = 1 then "" else "s") ++ " but " ++ toString given ++
    (if given = 1 then " was given" else " were given")

/-- CPython message for one missing positional argument. -/
def arityMissing1 (fname a1 : String) : String :=
  fname ++ "() missing 1 required positional argument: '" ++ a1 ++ "'"

/-- CPython message for two missing positional arguments. -/
def arityMissing2 (fname a1 a2 : String) : String :=
  fname ++ "() missing 2 required positional arguments: '" ++ a1 ++ "' and '" ++ a2 ++ "'"

/-- `cmd_grant(ctx, who, perm)`. -/
def cmd_grant : Handler := fun user args users _salt =>
  match args with
  | [] => .error (arityMissing2 "cmd_grant" "who" "perm")
  | [_] => .error (arityMissing1 "cmd_grant" "perm")
  | [who, perm] =>
    .ok (add_perm users who perm, user ++ " granted '" ++ perm ++ "' to " ++ who)
  | _ => .error (arityTakes "cmd_grant" 3 (args.length + 1))

/-- `cmd_revoke(ctx, who, perm)`. -/
def cmd_revoke : Handler := fun user args users _salt =>
  match args with
  | [] => .error (arityMissing2 "cmd_revoke" "who" "perm")
  | [_] => .error (arityMissing1 "cmd_revoke" "perm")
  | [who, perm] =>
    .ok (remove_perm users who perm, user ++ " revoked '" ++ perm ++ "' from " ++ who)
  | _ => .error (arityTakes "cmd_revoke" 3 (args.length + 1))

/-- `cmd_whoami(ctx)`. -/
def cmd_whoami : Handler := fun user args users _salt =>
  match args with
  | [] => .ok (users, "you are " ++ user)
  | _ => .error (arityTakes "cmd_whoami" 1 (args.length + 1))

/-- `cmd_say(ctx, *words)`. -/
def cmd_say : Handler := fun user args users _salt =>
  .ok (users, user ++ " says: " ++ String.intercalate " " args)

/-- `cmd_echo(ctx, *words)`. -/
def cmd_echo : Handler := fun _user args users _salt =>
  .ok (users, String.intercalate " " args)

/-- `cmd_list_users(ctx)`. -/
def cmd_list_users : Handler := fun _user args users _salt =>
  match args with
  | [] => .ok (users, String.intercalate ", " (list_users users))
  | _ => .error (arityTakes "cmd_list_users" 1 (args.length + 1))

/-- `cmd_list_perms(ctx, who)`. -/
def cmd_list_perms : Handler := fun _user args users _salt =>
  match args with
  | [] => .error (arityMissing1 "cmd_list_perms" "who")
  | [who] => .ok (users, String.intercalate ", " (list_perms users who))
  | _ => .error (arityTakes "cmd_list_perms" 2 (args.length + 1))

/-- `cmd_create_user(ctx, who)`. -/
def cmd_create_user : Handler := fun _user args users _salt =>
  match args with
  | [] => .error (arityMissing1 "cmd_create_user" "who")
  | [who] => .ok (ensure_user users who, "user '" ++ who ++ "' created")
  | _ => .error (arityTakes "cmd_create_user" 2 (args.length + 1))

/-- `cmd_change_password(ctx, who, new_plain)`: changing someone else's
password additionally requires the `change_others_password` permission. -/
def cmd_change_password : Handler := fun user args users salt =>
  match args with
  | [] => .error (arityMissing2 "cmd_change_password" "who" "new_plain")
  | [_] => .error (arityMissing1 "cmd_change_password" "new_plain")
  | [who, new_plain] =>
    if who ≠ user ∧ has_perm users user "change_others_password" = false then
      .ok (users, "no permission to change others' password")
    else
      .ok (set_password users who new_plain salt, "password changed for " ++ who)
  | _ => .error (arityTakes "cmd_change_password" 3 (args.length + 1))

/-- `cmd_add_perm(ctx, who, perm)`. -/
def cmd_add_perm : Handler := fun _user args users _salt =>
  match args with
  | [] => .error (arityMissing2 "cmd_add_perm" "who" "perm")
  | [_] => .error (arityMissing1 "cmd_add_perm" "perm")
  | [who, perm] => .ok (add_perm users who perm, "added '" ++ perm ++ "' to " ++ who)
  | _ => .error (arityTakes "cmd_add_perm" 3 (args.length + 1))

/-- `cmd_remove_perm(ctx, who, perm)`. -/
def cmd_remove_perm : Handler := fun _user args users _salt =>
  match args with
  | [] => .error (arityMissing2 "cmd_remove_perm" "who" "perm")
  | [_] => .error (arityMissing1 "cmd_remove_perm" "perm")
  | [who, perm] => .ok (remove_perm users who perm, "removed '" ++ perm ++ "' from " ++ who)
  | _ => .error (arityTakes "cmd_remove_perm" 3 (args.length + 1))

/-- Registered command names in dict order after `BotCreatorOS.__init__`:
re-registering an existing name keeps its position, `list_bots` and
`reload_bots` are appended. -/
def allCommandNames : List String :=
  ["grant", "revoke", "whoami", "say", "echo", "list_users", "list_perms",
   "create_user", "change_password", "add_perm", "remove_perm",
   "list_commands", "list_bots", "reload_bots"]

/-- `cmd_list_commands(ctx)`. -/
def cmd_list_commands : Handler := fun _user args users _salt =>
  match args with
  | [] => .ok (users, String.intercalate ", " allCommandNames)
  | _ => .error (arityTakes "cmd_list_commands" 1 (args.length + 1))

/-- `BotCreatorOS.cmd_list_bots` (bound method): joins the keys of
`self.loaded_bots`, which is empty at initialization and is bot-loader UI
state outside the authorization core (spec §1 excludes it). -/
def cmd_list_bots : Handler := fun _user args users _salt =>
  match args with
  | [] => .ok (users, "")
  | _ => .error (arityTakes "cmd_list_bots" 2 (args.length + 2))

/-- `BotCreatorOS.cmd_reload_bots` (bound method): reloads bot files from
disk (UI state outside the authorization core, spec §1) and reports. -/
def cmd_reload_bots : Handler := fun _user args users _salt =>
  match args with
  | [] => .ok (users, "Bots reloaded successfully")
  | _ => .error (arityTakes "cmd_reload_bots" 2 (args.length + 2))

/-- The registry as left by `BotCreatorOS.__init__` (src/py.py lines
722-736): every decorator registration is overwritten, in particular
`grant` and `revoke` end up requiring `admin`, not `grant`. -/
def registryAfterInit : List (String × CmdEntry) :=
  [("grant", ⟨cmd_grant, some "admin"⟩),
   ("revoke", ⟨cmd_revoke, some "admin"⟩),
   ("whoami", ⟨cmd_whoami, none⟩),
   ("say", ⟨cmd_say, some "say"⟩),
   ("echo", ⟨cmd_echo, none⟩),
   ("list_users", ⟨cmd_list_users, some "admin"⟩),
   ("list_perms", ⟨cmd_list_perms, some "admin"⟩),
   ("create_user", ⟨cmd_create_user, some "admin"⟩),
   ("change_password", ⟨cmd_change_password, some "admin"⟩),
   ("add_perm", ⟨cmd_add_perm, some "admin"⟩),
   ("remove_perm", ⟨cmd_remove_perm, some "admin"⟩),
   ("list_commands", ⟨cmd_list_commands, none⟩),
   ("list_bots", ⟨cmd_list_bots, some "view"⟩),
   ("reload_bots", ⟨cmd_reload_bots, some "admin"⟩)]

/-- `registry.get(name)`. -/
def registryGet (name : String) : Option CmdEntry :=
  lookupKey registryAfterInit name

/-! ### Dispatcher (src/py.py lines 126-205) -/

/-- Dispatcher state: the user store plus the impersonation sessions
`username -> (target_user, expires_at)`. -/
structure DState where
  users : Store
  sessions : List (String × (String × Int))

/-- The `try`/`except` around `entry['fn'](ctx, *args)`: a handler fault is
caught and surfaced as an `"error: ..."` result string. -/
def callHandler (users : Store) (target : String) (entry : CmdEntry)
    (args : List String) (salt : String) : Store × String :=
  match entry.fn target args users salt with
  | .ok res => res
  | .error e => (users, "error: " ++ e)

/-- Body of `Dispatcher._execute_as` after tokenization: registry lookup,
permission check against the acting user, then the guarded handler call. -/
def execParts (users : Store) (target : String) (parts : List String)
    (salt : String) : Store × String :=
  match parts with
  | [] => (users, "no command")
  | name :: args =>
    match registryGet name with
    | none => (users, "unknown command '" ++ name ++ "'")
    | some entry =>
      match entry.perm with
      | some required =>
        if required != "" && !(has_perm users target required) then
          (users, "user '" ++ target ++ "' lacks '" ++ required ++ "' permission")
        else callHandler users target entry args salt
      | none => callHandler users target entry args salt

/-- `Dispatcher._execute_as(target_user, cmdline, invoker)`: re-tokenizes
`cmdline` (outside the `try`, so a tokenization fault propagates) and runs
the command as `target`.  Only the user store can change. -/
def executeAs (st : DState) (target cmdline _invoker salt : String) :
    Except String (DState × String) :=
  match shlexSplit cmdline with
  | .error e => .error e
  | .ok parts =>
    .ok ({ st with users := (execParts st.users target parts salt).1 },
         (execParts st.users target parts salt).2)

/-- The local `ttl` of the session-elevation branch (src/py.py lines
176-181): `parts[4]` parsed as a Python int when present and parseable,
otherwise the 300-second default (the `except` around `int(parts[4])`
silently keeps the default). -/
def sessionTTL (rest : List String) : Int :=
  match rest with
  | [] => 300
  | t :: _ => match pyInt t with | some n => n | none => 300

/-- Dispatch after tokenization, mirroring `Dispatcher.run`:
elevation forms first, then active-session resolution with lazy expiry,
then normal execution as the invoker. -/
def runParts (st : DState) (invoker cmdline : String) (parts : List String)
    (now : Int) (salt : String) : Except String (DState × String) :=
  match parts with
  | [] => .ok (st, "no command")
  | p0 :: ps =>
    if p0 = "sudo" then
      match ps with
      | [] => .ok (st, "usage: sudo -u <target> <command...>  OR  sudo -i -u <target> [seconds]")
      | a1 :: ps2 =>
        if a1 = "-u" then
          match ps2 with
          | [] => .ok (st, "usage: sudo -u <target> <command...>  OR  sudo -i -u <target> [seconds]")
          | target :: rest =>
            if rest = [] then .ok (st, "usage: sudo -u <target> <command...>")
            else if has_perm st.users invoker "sudo" then
              executeAs st target (String.intercalate " " rest) invoker salt
            else .ok (st, "invoker '" ++ invoker ++ "' lacks 'sudo' permission")
        else if a1 = "-i" then
          match ps2 with
          | a2 :: target :: rest =>
            if a2 = "-u" then
              if has_perm st.users invoker "sudo" then
                .ok ({ st with sessions :=
                         insertKey st.sessions invoker (target, now + sessionTTL rest) },
                     "impersonating " ++ target ++ " for " ++
                       toString (sessionTTL rest) ++ " seconds")
              else .ok (st, "invoker '" ++ invoker ++ "' lacks 'sudo' permission")
            else .ok (st, "usage: sudo -u <target> <command...>  OR  sudo -i -u <target> [seconds]")
          | _ => .ok (st, "usage: sudo -u <target> <command...>  OR  sudo -i -u <target> [seconds]")
        else .ok (st, "usage: sudo -u <target> <command...>  OR  sudo -i -u <target> [seconds]")
    else
      match lookupKey st.sessions invoker with
      | some (target, expires) =>
        if now < expires then executeAs st target cmdline invoker salt
        else executeAs { st with sessions := eraseKey st.sessions invoker } invoker cmdline invoker salt
      | none => executeAs st invoker cmdline invoker salt

/-- `Dispatcher.run(invoker, cmdline)`: tokenize (a tokenization fault
propagates to the caller) and dispatch. -/
def run (st : DState) (invoker cmdline : String) (now : Int) (salt : String) :
    Except String (DState × String) :=
  match shlexSplit cmdline with
  | .error e => .error e
  | .ok parts => runParts st invoker cmdline parts now salt

/-! ### Observer: the argument vector delivered to the handler

`deliveredParts`/`runDelivered` follow exactly the same dispatch logic as
`execParts`/`run` but report the positional-argument list the handler is
invoked with (`none` when no handler is invoked), so that theorems can talk
about what the handler receives. -/

/-- The arguments `_execute_as` passes to the handler, if it reaches one. -/
def deliveredParts (users : Store) (target : String) (parts : List String) :
    Option (List String) :=
  match parts with
  | [] => none
  | name :: args =>
    match registryGet name with
    | none => none
    | some entry =>
      match entry.perm with
      | some required =>
        if required != "" && !(has_perm users target required) then none
        else some args
      | none => some args

/-- The arguments the handler is invoked with during `run`, if any. -/
def runDelivered (st : DState) (invoker cmdline : String) (now : Int) :
    Except String (Option (List String)) :=
  match shlexSplit cmdline with
  | .error e => .error e
  | .ok parts =>
    match parts with
    | [] => .ok none
    | p0 :: ps =>
      if p0 = "sudo" then
        match ps with
        | [] => .ok none
        | a1 :: ps2 =>
          if a1 = "-u" then
            match ps2 with
            | [] => .ok none
            | target :: rest =>
              if rest = [] then .ok none
              else if has_perm st.users invoker "sudo" then
                match shlexSplit (String.intercalate " " rest) with
                | .error e => .error e
                | .ok parts2 => .ok (deliveredParts st.users target parts2)
              else .ok none
          else .ok none
      else
        match lookupKey st.sessions invoker with
        | some (target, expires) =>
          if now < expires then .ok (deliveredParts st.users target parts)
          else .ok (deliveredParts st.users invoker parts)
        | none => .ok (deliveredParts st.users invoker parts)

/-! ### Association-map lemmas -/

theorem lookupKey_insertKey_self {α : Type} (l : List (String × α)) (k : String) (v : α) :
    lookupKey (insertKey l k v) k = some v := by
  induction l with
  | nil => simp [insertKey, lookupKey]
  | cons p rest ih =>
    obtain ⟨k', v'⟩ := p
    by_cases h : k' = k
    · simp [insertKey, h, lookupKey]
    · simp [insertKey, h, lookupKey, ih]

theorem lookupKey_eq_none {α : Type} {l : List (String × α)} {k : String}
    (h : k ∉ l.map Prod.fst) : lookupKey l k = none := by
  induction l with
  | nil => rfl
  | cons p rest ih =>
    obtain ⟨k', v'⟩ := p
    simp only [List.map_cons, List.mem_cons] at h
    push_neg at h
    simp only [lookupKey]
    rw [if_neg (fun hh => h.1 hh.symm)]
    exact ih h.2

theorem lookupKey_eraseKey_self {α : Type} {l : List (String × α)} (k : String)
    (h : (l.map Prod.fst).Nodup) : lookupKey (eraseKey l k) k = none := by
  induction l with
  | nil => rfl
  | cons p rest ih =>
    obtain ⟨k', v'⟩ := p
    simp only [List.map_cons, List.nodup_cons] at h
    by_cases hk : k' = k
    · subst hk
      simp only [eraseKey, if_pos rfl]
      exact lookupKey_eq_none h.1
    · simp only [eraseKey, if_neg hk, lookupKey]
      exact ih h.2

theorem mem_keys_insertKey {α : Type} (l : List (String × α)) (k : String) (v : α)
    (x : String) :
    x ∈ (insertKey l k v).map Prod.fst ↔ x ∈ l.map Prod.fst ∨ x = k := by
  induction l with
  | nil => simp [insertKey]
  | cons p rest ih =>
    obtain ⟨k', v'⟩ := p
    by_cases h : k' = k
    · subst h
      have hins : insertKey ((k', v') :: rest) k' v = (k', v) :: rest := by
        simp [insertKey]
      rw [hins]
      simp only [List.map_cons, List.mem_cons]
      tauto
    · have hins : insertKey ((k', v') :: rest) k v = (k', v') :: insertKey rest k v := by
        simp [insertKey, h]
      rw [hins]
      simp only [List.map_cons, List.mem_cons, ih]
      tauto

theorem keysNodup_insertKey {α : Type} {l : List (String × α)} (k : String) (v : α)
    (h : (l.map Prod.fst).Nodup) : ((insertKey l k v).map Prod.fst).Nodup := by
  induction l with
  | nil => simp [insertKey]
  | cons p rest ih =>
    obtain ⟨k', v'⟩ := p
    simp only [List.map_cons, List.nodup_cons] at h
    by_cases hk : k' = k
    · subst hk
      have hins : insertKey ((k', v') :: rest) k' v = (k', v) :: rest := by
        simp [insertKey]
      rw [hins]
      simp only [List.map_cons, List.nodup_cons]
      exact h
    · have hins : insertKey ((k', v') :: rest) k v = (k', v') :: insertKey rest k v := by
        simp [insertKey, hk]
      rw [hins]
      simp only [List.map_cons, List.nodup_cons]
      refine ⟨fun hmem => ?_, ih h.2⟩
      rcases (mem_keys_insertKey rest k v k').mp hmem with hm | hm
      · exact h.1 hm
      · exact hk hm

/-! ### Store lemmas -/

theorem lookupKey_ensure_user (users : Store) (u : String) :
    lookupKey (ensure_user users u) u = some ((lookupKey users u).getD ⟨[], none⟩) := by
  unfold ensure_user
  cases h : lookupKey users u with
  | some r => simp [h]
  | none => simp [lookupKey_insertKey_self]

theorem ensure_user_of_found {users : Store} {u : String} {r : UserRec}
    (h : lookupKey users u = some r) : ensure_user users u = users := by
  unfold ensure_user
  rw [h]

theorem list_perms_eq_getD (users : Store) (u : String) :
    list_perms users u = ((lookupKey users u).getD ⟨[], none⟩).perms := by
  unfold list_perms
  cases h : lookupKey users u <;> simp

theorem lookupKey_add_perm_self (users : Store) (u p : String) :
    lookupKey (add_perm users u p) u =
      some (if p ∈ ((lookupKey users u).getD ⟨[], none⟩).perms
            then (lookupKey users u).getD ⟨[], none⟩
            else { (lookupKey users u).getD ⟨[], none⟩ with
                     perms := ((lookupKey users u).getD ⟨[], none⟩).perms ++ [p] }) := by
  unfold add_perm
  rw [lookupKey_ensure_user]
  by_cases hp : p ∈ ((lookupKey users u).getD ⟨[], none⟩).perms
  · simp only [if_pos hp]
    rw [lookupKey_ensure_user]
  · simp only [if_neg hp]
    rw [lookupKey_insertKey_self]

/-! ### splitD and hashing lemmas -/

theorem splitD_no_dollar {cs : List Char} (h : '$' ∉ cs) : splitD cs = [cs] := by
  induction cs with
  | nil => rfl
  | cons c cs ih =>
    simp only [List.mem_cons] at h
    push_neg at h
    simp only [splitD]
    rw [if_neg (fun hh => h.1 hh.symm), ih h.2]

theorem splitD_append {a : List Char} (h : '$' ∉ a) (b : List Char) :
    splitD (a ++ '$' :: b) = a :: splitD b := by
  induction a with
  | nil => simp [splitD]
  | cons c cs ih =>
    simp only [List.mem_cons] at h
    push_neg at h
    show splitD (c :: (cs ++ '$' :: b)) = (c :: cs) :: splitD b
    simp only [splitD]
    rw [if_neg (fun hh => h.1 hh.symm), ih h.2]

theorem hexChar_ne_dollar : ∀ m : Fin 16, hexChar m.val ≠ '$' := by decide

theorem sha256hex_no_dollar (s : String) : '$' ∉ (sha256hex s).data := by
  intro hmem
  unfold sha256hex at hmem
  have hmem' :
      '$' ∈ (List.range 64).map
        (fun i => hexChar ((s.data.foldl (fun a c => (a * 131 + c.toNat) % 2 ^ 64) 5381) / 16 ^ i % 16)) :=
    hmem
  rcases List.mem_map.mp hmem' with ⟨i, -, hEq⟩
  exact hexChar_ne_dollar
    ⟨(s.data.foldl (fun a c => (a * 131 + c.toNat) % 2 ^ 64) 5381) / 16 ^ i % 16,
     Nat.mod_lt _ (by norm_num)⟩ hEq

/-! ### Dispatcher reduction lemmas -/

theorem run_of_split {st : DState} {invoker cmd : String} {now : Int} {salt : String}
    {parts : List String} (h : shlexSplit cmd = Except.ok parts) :
    run st invoker cmd now salt = runParts st invoker cmd parts now salt := by
  unfold run
  rw [h]

theorem executeAs_of_split {st : DState} {target cmdline invoker salt : String}
    {parts : List String} (h : shlexSplit cmdline = Except.ok parts) :
    executeAs st target cmdline invoker salt =
      Except.ok ({ st with users := (execParts st.users target parts salt).1 },
                 (execParts st.users target parts salt).2) := by
  unfold executeAs
  rw [h]

theorem executeAs_sessions {st : DState} {target cmdline invoker salt : String}
    {st' : DState} {r : String}
    (h : executeAs st target cmdline invoker salt = Except.ok (st', r)) :
    st'.sessions = st.sessions := by
  unfold executeAs at h
  cases hs : shlexSplit cmdline with
  | error e =>
    rw [hs] at h
    exact absurd h (by simp)
  | ok parts =>
    rw [hs] at h
    simp only [Except.ok.injEq, Prod.mk.injEq] at h
    rw [← h.1]

/-! ### Claims -/

/-- C4: for all users u and permission strings p, immediately after
`add_perm(u,p)` `has_perm(u,p)` is true (this half needs no precondition);
after a subsequent `remove_perm(u,p)` it is false again — amended: the
second half additionally needs that p occurs at most once in u's stored
permission list and that the wildcard '*' is in that list only if p is '*'
itself.  With a wildcard present (or a duplicated p) `has_perm` stays true
after the removal, so the claim's "no precondition on u's other
permissions" fails (see the counterexample). -/
theorem C4_roundtrip (users : Store) (u p : String)
    (h1 : p ∉ (list_perms users u).erase p)
    (h2 : "*" ∈ list_perms users u → p = "*") :
    has_perm (add_perm users u p) u p = true ∧
    has_perm (remove_perm (add_perm users u p) u p) u p = false := by
  rw [list_perms_eq_getD] at h1 h2
  have hX := lookupKey_add_perm_self users u p
  by_cases hp : p ∈ ((lookupKey users u).getD ⟨[], none⟩).perms
  · rw [if_pos hp] at hX
    have hpA : p ∈ ((lookupKey users u).getD ⟨[], none⟩).perms := hp
    constructor
    · simp only [has_perm, hX]
      simp [hpA]
    · have hrem : remove_perm (add_perm users u p) u p =
          insertKey (add_perm users u p) u
            { (lookupKey users u).getD ⟨[], none⟩ with
                perms := ((lookupKey users u).getD ⟨[], none⟩).perms.erase p } := by
        unfold remove_perm
        rw [ensure_user_of_found hX, hX]
        dsimp only
        rw [if_pos hpA]
      rw [hrem]
      simp only [has_perm, lookupKey_insertKey_self]
      simp only [Bool.or_eq_false_iff, decide_eq_false_iff_not]
      constructor
      · intro hst
        have hst' := List.mem_of_mem_erase hst
        have hps := h2 hst'
        rw [hps] at h1 hst
        exact h1 hst
      · exact h1
  · rw [if_neg hp] at hX
    have hpA : p ∈ (({ (lookupKey users u).getD ⟨[], none⟩ with
        perms := ((lookupKey users u).getD ⟨[], none⟩).perms ++ [p] } : UserRec)).perms := by
      simp
    constructor
    · simp only [has_perm, hX]
      simp
    · have hrem : remove_perm (add_perm users u p) u p =
          insertKey (add_perm users u p) u
            { (lookupKey users u).getD ⟨[], none⟩ with
                perms := (((lookupKey users u).getD ⟨[], none⟩).perms ++ [p]).erase p } := by
        unfold remove_perm
        rw [ensure_user_of_found hX, hX]
        dsimp only
        rw [if_pos hpA]
      rw [hrem]
      have herase : (((lookupKey users u).getD ⟨[], none⟩).perms ++ [p]).erase p
          = ((lookupKey users u).getD ⟨[], none⟩).perms := by
        rw [List.erase_append_right _ hp, List.erase_cons_head, List.append_nil]
      simp only [has_perm, lookupKey_insertKey_self, herase]
      simp only [Bool.or_eq_false_iff, decide_eq_false_iff_not]
      refine ⟨fun hst => ?_, hp⟩
      exact hp (h2 hst ▸ hst)

/-- C4 (witness): concrete instance of `C4_roundtrip`. -/
theorem C4_roundtrip_witness :
    ("say" : String) ∉ (list_perms [("u", ⟨["view"], none⟩)] "u").erase "say" ∧
    (("*" : String) ∈ list_perms [("u", ⟨["view"], none⟩)] "u" → ("say" : String) = "*") ∧
    (has_perm (add_perm [("u", ⟨["view"], none⟩)] "u" "say") "u" "say" = true ∧
     has_perm (remove_perm (add_perm [("u", ⟨["view"], none⟩)] "u" "say") "u" "say") "u" "say" = false) :=
  ⟨by decide, by decide,
   C4_roundtrip [("u", ⟨["view"], none⟩)] "u" "say" (by decide) (by decide)⟩

/-- C4 (counterexample): with the wildcard '*' granted, `has_perm(u, "say")`
is still true right after `remove_perm(u, "say")`, so the claim as stated —
false "with no precondition on u's other permissions" — fails. -/
theorem C4_counterexample :
    has_perm (remove_perm (add_perm [("u", ⟨["*"], none⟩)] "u" "say") "u" "say") "u" "say"
      = true := by
  decide

/-- C7: `check_password(name, plaintext)` is false whenever the user is
unknown or has no password record; and for every user u, plaintext p and
fresh salt (a hex string, hence free of `'$'`), `check_password(u, p)` is
true immediately after `set_password(u, p)`. -/
theorem C7_check_password (users : Store) (u p salt : String) :
    (lookupKey users u = none → check_password users u p = Except.ok false) ∧
    (∀ r, lookupKey users u = some r → r.password = none →
      check_password users u p = Except.ok false) ∧
    ('$' ∉ salt.data →
      check_password (set_password users u p salt) u p = Except.ok true) := by
  refine ⟨fun h => ?_, fun r h hpw => ?_, fun hs => ?_⟩
  · simp [check_password, h]
  · simp [check_password, h, hpw]
  · have hset : lookupKey (set_password users u p salt) u =
        some { (lookupKey users u).getD ⟨[], none⟩ with
                 password := some (hash_password p salt) } := by
      unfold set_password
      rw [lookupKey_ensure_user]
      dsimp only
      rw [lookupKey_insertKey_self]
    have hdata : (hash_password p salt).data
        = salt.data ++ '$' :: (sha256hex (p ++ salt)).data := by
      unfold hash_password
      rw [String.data_append, String.data_append]
      simp
    have hsplit : splitD (hash_password p salt).data
        = [salt.data, (sha256hex (p ++ salt)).data] := by
      rw [hdata, splitD_append hs, splitD_no_dollar (sha256hex_no_dollar _)]
    simp only [check_password, hset, hsplit]
    have hmk : String.mk salt.data = salt := rfl
    rw [hmk]
    simp

/-- C7 (witness): concrete instance of `C7_check_password`. -/
theorem C7_check_password_witness :
    (lookupKey ([("v", ⟨[], none⟩)] : Store) "u" = none →
      check_password [("v", ⟨[], none⟩)] "u" "pw" = Except.ok false) ∧
    (∀ r, lookupKey ([("v", ⟨[], none⟩)] : Store) "u" = some r → r.password = none →
      check_password [("v", ⟨[], none⟩)] "u" "pw" = Except.ok false) ∧
    ('$' ∉ ("abcd" : String).data →
      check_password (set_password [("v", ⟨[], none⟩)] "u" "pw" "abcd") "u" "pw"
        = Except.ok true) :=
  C7_check_password [("v", ⟨[], none⟩)] "u" "pw" "abcd"

/-- C8: an acting user with `admin` but without `change_others_password`
(and without the wildcard, since `has_perm` would then be true) who targets
a different user gets the dedicated denial from `change_password`, and the
state — in particular the target's password record — is unchanged, even
though `admin` was already verified by the registry. -/
theorem C8_change_password_guard (st : DState) (actor invoker cmd who np salt : String)
    (h : shlexSplit cmd = Except.ok ["change_password", who, np])
    (hadmin : has_perm st.users actor "admin" = true)
    (hne : who ≠ actor)
    (hnop : has_perm st.users actor "change_others_password" = false) :
    executeAs st actor cmd invoker salt =
      Except.ok (st, "no permission to change others' password") := by
  rw [executeAs_of_split h]
  simp [execParts, registryGet, registryAfterInit, lookupKey, hadmin, callHandler,
        cmd_change_password, hne, hnop]

/-- C8 (witness): concrete instance of `C8_change_password_guard`. -/
theorem C8_change_password_guard_witness :
    shlexSplit "change_password bob new" = Except.ok ["change_password", "bob", "new"] ∧
    has_perm ([("adm", ⟨["admin"], none⟩)] : Store) "adm" "admin" = true ∧
    ("bob" : String) ≠ "adm" ∧
    has_perm ([("adm", ⟨["admin"], none⟩)] : Store) "adm" "change_others_password" = false ∧
    executeAs ⟨[("adm", ⟨["admin"], none⟩)], []⟩ "adm" "change_password bob new" "adm" "s" =
      Except.ok (⟨[("adm", ⟨["admin"], none⟩)], []⟩, "no permission to change others' password") :=
  ⟨rfl, by decide, by decide, by decide,
   C8_change_password_guard ⟨[("adm", ⟨["admin"], none⟩)], []⟩ "adm" "adm"
     "change_password bob new" "bob" "new" "s" rfl (by decide) (by decide) (by decide)⟩

/-- C9: elevation never checks that the target exists — for an invoker with
the `sudo` permission and a target absent from the user store, `run(invoker,
"sudo -u <target> whoami")` succeeds, executing `whoami` (whose registry
entry requires no permission) with the nonexistent target as acting user. -/
theorem C9_no_target_existence_check (st : DState) (invoker cmd target : String)
    (now : Int) (salt : String)
    (h : shlexSplit cmd = Except.ok ["sudo", "-u", target, "whoami"])
    (hperm : has_perm st.users invoker "sudo" = true)
    (habs : lookupKey st.users target = none) :
    run st invoker cmd now salt = Except.ok (st, "you are " ++ target) := by
  rw [run_of_split h]
  have hjoin : shlexSplit (String.intercalate " " ["whoami"]) = Except.ok ["whoami"] := rfl
  simp only [runParts]
  simp [hperm]
  rw [executeAs_of_split hjoin]
  simp [execParts, registryGet, registryAfterInit, lookupKey, callHandler, cmd_whoami]

/-- C9 (witness): concrete instance of `C9_no_target_existence_check`:
`ghost` is not in the store, yet `whoami` runs as `ghost`. -/
theorem C9_no_target_existence_check_witness :
    shlexSplit "sudo -u ghost whoami" = Except.ok ["sudo", "-u", "ghost", "whoami"] ∧
    has_perm ([("alice", ⟨["sudo"], none⟩)] : Store) "alice" "sudo" = true ∧
    lookupKey ([("alice", ⟨["sudo"], none⟩)] : Store) "ghost" = none ∧
    run ⟨[("alice", ⟨["sudo"], none⟩)], []⟩ "alice" "sudo -u ghost whoami" 0 "s" =
      Except.ok (⟨[("alice", ⟨["sudo"], none⟩)], []⟩, "you are " ++ "ghost") :=
  ⟨rfl, by decide, rfl,
   C9_no_target_existence_check ⟨[("alice", ⟨["sudo"], none⟩)], []⟩ "alice"
     "sudo -u ghost whoami" "ghost" 0 "s" rfl (by decide) rfl⟩

/-- C3 (amended): in the registry as re-registered by
`BotCreatorOS.__init__`, the built-in commands `grant` and `revoke` execute
their handler if and only if the acting user holds the permission `admin`
(or the wildcard `*`, which makes `has_perm` true) — not `grant` as the
decorator declared — and an acting user lacking it receives a denial string
naming the missing permission `admin`. -/
theorem C3_grant_revoke_require_admin (st : DState) (u invoker cmdG cmdR who p salt : String)
    (hG : shlexSplit cmdG = Except.ok ["grant", who, p])
    (hR : shlexSplit cmdR = Except.ok ["revoke", who, p]) :
    (has_perm st.users u "admin" = true →
      executeAs st u cmdG invoker salt =
        Except.ok ({ st with users := add_perm st.users who p },
                   u ++ " granted '" ++ p ++ "' to " ++ who) ∧
      executeAs st u cmdR invoker salt =
        Except.ok ({ st with users := remove_perm st.users who p },
                   u ++ " revoked '" ++ p ++ "' from " ++ who)) ∧
    (has_perm st.users u "admin" = false →
      executeAs st u cmdG invoker salt =
        Except.ok (st, "user '" ++ u ++ "' lacks 'admin' permission") ∧
      executeAs st u cmdR invoker salt =
        Except.ok (st, "user '" ++ u ++ "' lacks 'admin' permission")) := by
  constructor
  · intro ha
    constructor
    · rw [executeAs_of_split hG]
      simp [execParts, registryGet, registryAfterInit, lookupKey, ha, callHandler, cmd_grant]
    · rw [executeAs_of_split hR]
      simp [execParts, registryGet, registryAfterInit, lookupKey, ha, callHandler, cmd_revoke]
  · intro ha
    constructor
    · rw [executeAs_of_split hG]
      simp only [execParts, registryGet, registryAfterInit, lookupKey]
      simp [ha]
      rw [String.append_assoc, String.append_assoc]
      rfl
    · rw [executeAs_of_split hR]
      simp only [execParts, registryGet, registryAfterInit, lookupKey]
      simp [ha]
      rw [String.append_assoc, String.append_assoc]
      rfl

/-- C3 (witness): concrete instance of `C3_grant_revoke_require_admin`. -/
theorem C3_grant_revoke_require_admin_witness :
    shlexSplit "grant dave say" = Except.ok ["grant", "dave", "say"] ∧
    shlexSplit "revoke dave say" = Except.ok ["revoke", "dave", "say"] ∧
    has_perm ([("root", ⟨["admin"], none⟩)] : Store) "root" "admin" = true ∧
    executeAs ⟨[("root", ⟨["admin"], none⟩)], []⟩ "root" "grant dave say" "root" "s" =
      Except.ok (⟨add_perm [("root", ⟨["admin"], none⟩)] "dave" "say", []⟩,
                 "root" ++ " granted '" ++ "say" ++ "' to " ++ "dave") :=
  ⟨rfl, rfl, by decide,
   ((C3_grant_revoke_require_admin ⟨[("root", ⟨["admin"], none⟩)], []⟩ "root" "root"
      "grant dave say" "revoke dave say" "dave" "say" "s" rfl rfl).1 (by decide)).1⟩

/-- C3 (counterexample): the claim as stated — handler runs iff the acting
user holds `grant` — is false on the initialized registry: `carol`, who
holds exactly `grant`, is denied with a message naming `admin`, while
`root`, who holds `admin` but not `grant`, gets the handler executed. -/
theorem C3_counterexample :
    executeAs ⟨[("carol", ⟨["grant"], none⟩)], []⟩ "carol" "grant dave say" "carol" "s" =
      Except.ok (⟨[("carol", ⟨["grant"], none⟩)], []⟩, "user 'carol' lacks 'admin' permission") ∧
    executeAs ⟨[("root", ⟨["admin"], none⟩)], []⟩ "root" "grant dave say" "root" "s" =
      Except.ok (⟨[("root", ⟨["admin"], none⟩), ("dave", ⟨["say"], none⟩)], []⟩,
                 "root granted 'say' to dave") :=
  ⟨rfl, rfl⟩

/-- One-shot elevation path: with `sudo` permission and a nonempty command,
`run` re-joins the remaining tokens with single spaces and hands the joined
string to `_execute_as` for the target. -/
theorem run_sudo_oneshot {st : DState} {invoker cmd target : String}
    {rest : List String} {now : Int} {salt : String}
    (h : shlexSplit cmd = Except.ok ("sudo" :: "-u" :: target :: rest))
    (hne : rest ≠ [])
    (hp : has_perm st.users invoker "sudo" = true) :
    run st invoker cmd now salt =
      executeAs st target (String.intercalate " " rest) invoker salt := by
  rw [run_of_split h]
  simp only [runParts]
  simp [hne, hp]

/-- Session-elevation path, permission granted: the session map entry is
installed and the confirmation string returned. -/
theorem run_sudo_session {st : DState} {invoker cmd target : String}
    {rest : List String} {now : Int} {salt : String}
    (h : shlexSplit cmd = Except.ok ("sudo" :: "-i" :: "-u" :: target :: rest))
    (hp : has_perm st.users invoker "sudo" = true) :
    run st invoker cmd now salt =
      Except.ok ({ st with sessions :=
                     insertKey st.sessions invoker (target, now + sessionTTL rest) },
                 "impersonating " ++ target ++ " for " ++
                   toString (sessionTTL rest) ++ " seconds") := by
  rw [run_of_split h]
  simp only [runParts]
  simp [hp]

/-- Session-elevation path, permission missing: denial, state unchanged. -/
theorem run_sudo_session_denied {st : DState} {invoker cmd target : String}
    {rest : List String} {now : Int} {salt : String}
    (h : shlexSplit cmd = Except.ok ("sudo" :: "-i" :: "-u" :: target :: rest))
    (hp : has_perm st.users invoker "sudo" = false) :
    run st invoker cmd now salt =
      Except.ok (st, "invoker '" ++ invoker ++ "' lacks 'sudo' permission") := by
  rw [run_of_split h]
  simp only [runParts]
  simp [hp]

/-- Active-session path: a live session makes `run` execute the original
command line as the session target. -/
theorem run_session_active {st : DState} {invoker cmd t0 : String} {ts : List String}
    {target : String} {expires now : Int} {salt : String}
    (h : shlexSplit cmd = Except.ok (t0 :: ts)) (hns : t0 ≠ "sudo")
    (hsess : lookupKey st.sessions invoker = some (target, expires))
    (hlive : now < expires) :
    run st invoker cmd now salt = executeAs st target cmd invoker salt := by
  rw [run_of_split h]
  simp only [runParts]
  rw [if_neg hns, hsess]
  dsimp only
  rw [if_pos hlive]

/-- Expired-session path: the session is deleted lazily and the command
line executes as the invoker itself. -/
theorem run_session_expired {st : DState} {invoker cmd t0 : String} {ts : List String}
    {target : String} {expires now : Int} {salt : String}
    (h : shlexSplit cmd = Except.ok (t0 :: ts)) (hns : t0 ≠ "sudo")
    (hsess : lookupKey st.sessions invoker = some (target, expires))
    (hexp : expires ≤ now) :
    run st invoker cmd now salt =
      executeAs { st with sessions := eraseKey st.sessions invoker }
        invoker cmd invoker salt := by
  rw [run_of_split h]
  simp only [runParts]
  rw [if_neg hns, hsess]
  dsimp only
  rw [if_neg (not_lt.mpr hexp)]

/-- C5: with the `sudo` permission, `run(invoker, "sudo -i -u <target>
[ttl]")` installs or overwrites the invoker's single session entry with
`(target, now + ttl)` — `ttl` being `sessionTTL rest`, i.e. defaulting to
300 when the token is omitted or unparseable — returns the confirmation
naming target and TTL, and executes no command (only the session map
changes).  Without the `sudo` permission the invoker receives the denial
string and the state, in particular the session map, is unchanged. -/
theorem C5_session_elevation (st : DState) (invoker cmd target : String)
    (rest : List String) (now : Int) (salt : String)
    (h : shlexSplit cmd = Except.ok ("sudo" :: "-i" :: "-u" :: target :: rest)) :
    (has_perm st.users invoker "sudo" = true →
      run st invoker cmd now salt =
        Except.ok ({ st with sessions :=
                       insertKey st.sessions invoker (target, now + sessionTTL rest) },
                   "impersonating " ++ target ++ " for " ++
                     toString (sessionTTL rest) ++ " seconds") ∧
      lookupKey (insertKey st.sessions invoker (target, now + sessionTTL rest)) invoker
        = some (target, now + sessionTTL rest)) ∧
    (has_perm st.users invoker "sudo" = false →
      run st invoker cmd now salt =
        Except.ok (st, "invoker '" ++ invoker ++ "' lacks 'sudo' permission")) :=
  ⟨fun hp => ⟨run_sudo_session h hp, lookupKey_insertKey_self _ _ _⟩,
   fun hp => run_sudo_session_denied h hp⟩

/-- C5 (witness): concrete instance of `C5_session_elevation`, with
`sessionTTL ["60"] = 60` and `expiresAt = 100 + 60`. -/
theorem C5_session_elevation_witness :
    shlexSplit "sudo -i -u bob 60" = Except.ok ["sudo", "-i", "-u", "bob", "60"] ∧
    has_perm ([("alice", ⟨["sudo"], none⟩)] : Store) "alice" "sudo" = true ∧
    (run ⟨[("alice", ⟨["sudo"], none⟩)], []⟩ "alice" "sudo -i -u bob 60" 100 "s" =
      Except.ok ({ users := [("alice", ⟨["sudo"], none⟩)],
                   sessions := insertKey [] "alice" ("bob", 100 + sessionTTL ["60"]) },
                 "impersonating " ++ "bob" ++ " for " ++
                   toString (sessionTTL ["60"]) ++ " seconds") ∧
     lookupKey (insertKey [] "alice" ("bob", 100 + sessionTTL ["60"])) "alice"
       = some ("bob", 100 + sessionTTL ["60"])) :=
  ⟨rfl, by decide,
   (C5_session_elevation ⟨[("alice", ⟨["sudo"], none⟩)], []⟩ "alice" "sudo -i -u bob 60"
      "bob" ["60"] 100 "s" rfl).1 (by decide)⟩

/-- C6: lazy session expiry — when the invoker's session has
`expiresAt <= now`, the next `run` with a command line whose first token is
not `sudo` deletes the session and executes the command line as the
invoker's own identity and permissions; afterwards no session exists for
the invoker (session-map keys are unique, as in a Python dict). -/
theorem C6_lazy_expiry (st : DState) (invoker cmd target : String) (expires : Int)
    (t0 : String) (ts : List String) (now : Int) (salt : String)
    (h : shlexSplit cmd = Except.ok (t0 :: ts))
    (hns : t0 ≠ "sudo")
    (hsess : lookupKey st.sessions invoker = some (target, expires))
    (hexp : expires ≤ now)
    (hnd : (st.sessions.map Prod.fst).Nodup) :
    run st invoker cmd now salt =
      executeAs { st with sessions := eraseKey st.sessions invoker }
        invoker cmd invoker salt ∧
    ∀ st' r, run st invoker cmd now salt = Except.ok (st', r) →
      lookupKey st'.sessions invoker = none := by
  have h1 := @run_session_expired st invoker cmd t0 ts target expires now salt h hns hsess hexp
  refine ⟨h1, fun st' r hr => ?_⟩
  rw [h1] at hr
  rw [executeAs_sessions hr]
  exact lookupKey_eraseKey_self invoker hnd

/-- C6 (witness): concrete instance of `C6_lazy_expiry` — session expired
at 10, `run` at 20 executes `whoami` as alice herself and drops the
session. -/
theorem C6_lazy_expiry_witness :
    shlexSplit "whoami" = Except.ok ["whoami"] ∧
    ("whoami" : String) ≠ "sudo" ∧
    lookupKey [("alice", (("bob" : String), (10 : Int)))] "alice" = some ("bob", 10) ∧
    ((10 : Int) ≤ 20) ∧
    (([("alice", (("bob" : String), (10 : Int)))].map Prod.fst).Nodup) ∧
    (run ⟨[], [("alice", ("bob", 10))]⟩ "alice" "whoami" 20 "s" =
       executeAs { users := [], sessions := eraseKey [("alice", ("bob", 10))] "alice" }
         "alice" "whoami" "alice" "s" ∧
     ∀ st' r, run ⟨[], [("alice", ("bob", 10))]⟩ "alice" "whoami" 20 "s"
         = Except.ok (st', r) → lookupKey st'.sessions "alice" = none) :=
  ⟨rfl, by decide, rfl, by decide, by decide,
   C6_lazy_expiry ⟨[], [("alice", ("bob", 10))]⟩ "alice" "whoami" "bob" 10 "whoami" []
     20 "s" rfl (by decide) rfl (by decide) (by decide)⟩

/-- C10: the session TTL is not validated to be positive — with the `sudo`
permission and an integer token `ttl <= 0`, `run(invoker, "sudo -i -u
<target> <ttl>")` installs a session whose `expiresAt = now + ttl` is not
in the future and still returns the confirmation claiming impersonation
for `ttl` seconds; the invoker's next non-`sudo` command (at any `now2 >=
now`) then executes as the invoker itself and removes the session. -/
theorem C10_nonpositive_ttl (st : DState) (invoker cmd target ttlTok : String)
    (ttl : Int) (now now2 : Int) (salt : String) (cmd2 t0 : String) (ts : List String)
    (h : shlexSplit cmd = Except.ok ["sudo", "-i", "-u", target, ttlTok])
    (httl : pyInt ttlTok = some ttl) (hle : ttl ≤ 0)
    (hperm : has_perm st.users invoker "sudo" = true)
    (hnd : (st.sessions.map Prod.fst).Nodup)
    (h2 : shlexSplit cmd2 = Except.ok (t0 :: ts)) (hns : t0 ≠ "sudo")
    (hmono : now ≤ now2) :
    run st invoker cmd now salt =
      Except.ok (⟨st.users, insertKey st.sessions invoker (target, now + ttl)⟩,
        "impersonating " ++ target ++ " for " ++ toString ttl ++ " seconds") ∧
    now + ttl ≤ now ∧
    run ⟨st.users, insertKey st.sessions invoker (target, now + ttl)⟩ invoker cmd2 now2 salt =
      executeAs ⟨st.users, eraseKey (insertKey st.sessions invoker (target, now + ttl)) invoker⟩
        invoker cmd2 invoker salt ∧
    (∀ st' r,
      run ⟨st.users, insertKey st.sessions invoker (target, now + ttl)⟩ invoker cmd2 now2 salt
        = Except.ok (st', r) →
      lookupKey st'.sessions invoker = none) := by
  have httl' : sessionTTL [ttlTok] = ttl := by simp [sessionTTL, httl]
  have hpart1 : run st invoker cmd now salt =
      Except.ok (⟨st.users, insertKey st.sessions invoker (target, now + ttl)⟩,
        "impersonating " ++ target ++ " for " ++ toString ttl ++ " seconds") := by
    have hx := @run_sudo_session st invoker cmd target [ttlTok] now salt h hperm
    rw [httl'] at hx
    exact hx
  have hsess2 : lookupKey (insertKey st.sessions invoker (target, now + ttl)) invoker
      = some (target, now + ttl) := lookupKey_insertKey_self _ _ _
  have hexp2 : now + ttl ≤ now2 := by omega
  have hpart3 :
      run ⟨st.users, insertKey st.sessions invoker (target, now + ttl)⟩ invoker cmd2 now2 salt =
      executeAs ⟨st.users, eraseKey (insertKey st.sessions invoker (target, now + ttl)) invoker⟩
        invoker cmd2 invoker salt :=
    @run_session_expired ⟨st.users, insertKey st.sessions invoker (target, now + ttl)⟩
      invoker cmd2 t0 ts target (now + ttl) now2 salt h2 hns hsess2 hexp2
  refine ⟨hpart1, by omega, hpart3, fun st' r hr => ?_⟩
  rw [hpart3] at hr
  rw [executeAs_sessions hr]
  exact lookupKey_eraseKey_self invoker (keysNodup_insertKey invoker _ hnd)

/-- C10 (witness): concrete instance of `C10_nonpositive_ttl` with
`ttl = -5`. -/
theorem C10_nonpositive_ttl_witness :
    shlexSplit "sudo -i -u bob -5" = Except.ok ["sudo", "-i", "-u", "bob", "-5"] ∧
    pyInt "-5" = some (-5) ∧ ((-5 : Int) ≤ 0) ∧
    has_perm ([("alice", ⟨["sudo"], none⟩)] : Store) "alice" "sudo" = true ∧
    (([] : List (String × (String × Int))).map Prod.fst).Nodup ∧
    shlexSplit "whoami" = Except.ok ["whoami"] ∧ ("whoami" : String) ≠ "sudo" ∧
    ((100 : Int) ≤ 100) ∧
    (run ⟨[("alice", ⟨["sudo"], none⟩)], []⟩ "alice" "sudo -i -u bob -5" 100 "s" =
      Except.ok ({ users := [("alice", ⟨["sudo"], none⟩)],
                   sessions := insertKey [] "alice" ("bob", 100 + (-5)) },
        "impersonating " ++ "bob" ++ " for " ++ toString (-5 : Int) ++ " seconds") ∧
     (100 : Int) + (-5) ≤ 100 ∧
     run { users := [("alice", ⟨["sudo"], none⟩)],
           sessions := insertKey [] "alice" ("bob", 100 + (-5)) } "alice" "whoami" 100 "s" =
       executeAs { users := [("alice", ⟨["sudo"], none⟩)],
                   sessions := eraseKey (insertKey [] "alice" ("bob", 100 + (-5))) "alice" }
         "alice" "whoami" "alice" "s" ∧
     (∀ st' r,
       run { users := [("alice", ⟨["sudo"], none⟩)],
             sessions := insertKey [] "alice" ("bob", 100 + (-5)) } "alice" "whoami" 100 "s"
           = Except.ok (st', r) → lookupKey st'.sessions "alice" = none)) :=
  ⟨rfl, rfl, by decide, by decide, by decide, rfl, by decide, by decide,
   C10_nonpositive_ttl ⟨[("alice", ⟨["sudo"], none⟩)], []⟩ "alice" "sudo -i -u bob -5"
     "bob" "-5" (-5) 100 100 "s" "whoami" "whoami" [] rfl rfl (by decide) (by decide)
     (by decide) rfl (by decide) (by decide)⟩

/-- No-session path: with no elevation keyword and no session entry, the
command line executes as the invoker. -/
theorem run_no_session {st : DState} {invoker cmd t0 : String} {ts : List String}
    {now : Int} {salt : String}
    (h : shlexSplit cmd = Except.ok (t0 :: ts)) (hns : t0 ≠ "sudo")
    (hsess : lookupKey st.sessions invoker = none) :
    run st invoker cmd now salt = executeAs st invoker cmd invoker salt := by
  rw [run_of_split h]
  simp only [runParts]
  rw [if_neg hns, hsess]

/-- C2 (amended): quoted substrings are preserved on the session dispatch
path, which re-tokenizes the original command line for the target, but the
one-shot `sudo -u` path re-joins the tokens after the target with single
spaces and re-tokenizes the joined string, so a quoted argument containing
spaces is delivered to the handler as multiple positional arguments rather
than one (`C2_counterexample` exhibits `"a b"` arriving as `a`, `b`). -/
theorem C2_quoting_dispatch_paths (st : DState) (invoker cmd target : String)
    (rest : List String) (now : Int) (salt : String)
    (h : shlexSplit cmd = Except.ok ("sudo" :: "-u" :: target :: rest))
    (hne : rest ≠ [])
    (hperm : has_perm st.users invoker "sudo" = true) :
    run st invoker cmd now salt =
      executeAs st target (String.intercalate " " rest) invoker salt ∧
    (∀ cmd2 t2 ts2 tgt exp,
      shlexSplit cmd2 = Except.ok (t2 :: ts2) → t2 ≠ "sudo" →
      lookupKey st.sessions invoker = some (tgt, exp) → now < exp →
      run st invoker cmd2 now salt = executeAs st tgt cmd2 invoker salt) :=
  ⟨run_sudo_oneshot h hne hperm,
   fun _cmd2 _t2 _ts2 _tgt _exp h2 hns hsess hlive =>
     run_session_active h2 hns hsess hlive⟩

/-- C2 (witness): concrete instance of `C2_quoting_dispatch_paths`. -/
theorem C2_quoting_dispatch_paths_witness :
    shlexSplit "sudo -u bob echo \"a b\""
      = Except.ok ["sudo", "-u", "bob", "echo", "a b"] ∧
    (["echo", "a b"] : List String) ≠ [] ∧
    has_perm ([("alice", ⟨["sudo"], none⟩)] : Store) "alice" "sudo" = true ∧
    (run ⟨[("alice", ⟨["sudo"], none⟩)], []⟩ "alice" "sudo -u bob echo \"a b\"" 0 "s" =
       executeAs ⟨[("alice", ⟨["sudo"], none⟩)], []⟩ "bob"
         (String.intercalate " " ["echo", "a b"]) "alice" "s" ∧
     (∀ cmd2 t2 ts2 tgt exp,
       shlexSplit cmd2 = Except.ok (t2 :: ts2) → t2 ≠ "sudo" →
       lookupKey (⟨[("alice", ⟨["sudo"], none⟩)], []⟩ : DState).sessions "alice"
         = some (tgt, exp) → (0 : Int) < exp →
       run ⟨[("alice", ⟨["sudo"], none⟩)], []⟩ "alice" cmd2 0 "s" =
         executeAs ⟨[("alice", ⟨["sudo"], none⟩)], []⟩ tgt cmd2 "alice" "s")) :=
  ⟨rfl, by decide, by decide,
   C2_quoting_dispatch_paths ⟨[("alice", ⟨["sudo"], none⟩)], []⟩ "alice"
     "sudo -u bob echo \"a b\"" "bob" ["echo", "a b"] 0 "s" rfl (by decide) (by decide)⟩

/-- C2 (counterexample): the claim as stated is false — under one-shot
elevation the handler receives the quoted `"a b"` as TWO positional
arguments `a` and `b`, while the same command line executed without
elevation delivers the single argument `a b`. -/
theorem C2_counterexample :
    runDelivered ⟨[("alice", ⟨["sudo"], none⟩)], []⟩ "alice" "sudo -u bob echo \"a b\"" 0 =
      Except.ok (some ["a", "b"]) ∧
    runDelivered ⟨[("alice", ⟨["sudo"], none⟩)], []⟩ "bob" "echo \"a b\"" 0 =
      Except.ok (some ["a b"]) :=
  ⟨rfl, rfl⟩

/-- C1 (amended): for every invoker and every command line that tokenizes
successfully — and, for the one-shot `sudo -u` form, whose remaining
tokens re-joined with single spaces also tokenize — `Dispatcher.run`
returns a result string and never raises: usage errors, denials and
unknown commands come back as strings, and any handler fault is caught at
the dispatch boundary and surfaced as an `"error: <message>"` string.  A
command line that fails tokenization (unbalanced quote or trailing escape)
instead raises `ValueError` to the caller, refuting the claim as stated
(`C1_counterexample`). -/
theorem C1_run_fail_soft (st : DState) (invoker cmd : String) (now : Int) (salt : String)
    (parts : List String) (h : shlexSplit cmd = Except.ok parts)
    (hj : ∀ target rest, parts = "sudo" :: "-u" :: target :: rest → rest ≠ [] →
      ∃ parts2, shlexSplit (String.intercalate " " rest) = Except.ok parts2) :
    ∃ st' r, run st invoker cmd now salt = Except.ok (st', r) := by
  rcases parts with _ | ⟨p0, ps⟩
  · rw [run_of_split h]
    exact ⟨_, _, rfl⟩
  · by_cases hs : p0 = "sudo"
    · subst hs
      rcases ps with _ | ⟨a1, ps2⟩
      · rw [run_of_split h]
        exact ⟨_, _, rfl⟩
      · by_cases hu : a1 = "-u"
        · subst hu
          rcases ps2 with _ | ⟨target, rest⟩
          · rw [run_of_split h]
            exact ⟨_, _, rfl⟩
          · by_cases hrest : rest = []
            · subst hrest
              rw [run_of_split h]
              exact ⟨_, _, rfl⟩
            · cases hperm : has_perm st.users invoker "sudo" with
              | true =>
                obtain ⟨parts2, hp2⟩ := hj target rest rfl hrest
                rw [run_sudo_oneshot h hrest hperm, executeAs_of_split hp2]
                exact ⟨_, _, rfl⟩
              | false =>
                refine ⟨st, "invoker '" ++ invoker ++ "' lacks 'sudo' permission", ?_⟩
                rw [run_of_split h]
                simp only [runParts]
                simp [hrest, hperm]
        · by_cases hi : a1 = "-i"
          · subst hi
            rcases ps2 with _ | ⟨a2, ps3⟩
            · rw [run_of_split h]
              exact ⟨_, _, rfl⟩
            · rcases ps3 with _ | ⟨target, rest⟩
              · rw [run_of_split h]
                exact ⟨_, _, rfl⟩
              · by_cases h2u : a2 = "-u"
                · subst h2u
                  cases hperm : has_perm st.users invoker "sudo" with
                  | true =>
                    rw [@run_sudo_session st invoker cmd target rest now salt h hperm]
                    exact ⟨_, _, rfl⟩
                  | false =>
                    rw [@run_sudo_session_denied st invoker cmd target rest now salt h hperm]
                    exact ⟨_, _, rfl⟩
                · refine ⟨st,
                    "usage: sudo -u <target> <command...>  OR  sudo -i -u <target> [seconds]", ?_⟩
                  rw [run_of_split h]
                  simp only [runParts]
                  simp [h2u]
          · refine ⟨st,
              "usage: sudo -u <target> <command...>  OR  sudo -i -u <target> [seconds]", ?_⟩
            rw [run_of_split h]
            simp only [runParts]
            simp [hu, hi]
    · cases hsess : lookupKey st.sessions invoker with
      | none =>
        rw [run_no_session h hs hsess, executeAs_of_split h]
        exact ⟨_, _, rfl⟩
      | some pr =>
        obtain ⟨target, expires⟩ := pr
        by_cases hlt : now < expires
        · rw [run_session_active h hs hsess hlt, executeAs_of_split h]
          exact ⟨_, _, rfl⟩
        · rw [run_session_expired h hs hsess (not_lt.mp hlt), executeAs_of_split h]
          exact ⟨_, _, rfl⟩

/-- C1 (witness): concrete instance of `C1_run_fail_soft` — `frobnicate`
is unknown, yet `run` returns a result string. -/
theorem C1_run_fail_soft_witness :
    shlexSplit "frobnicate" = Except.ok ["frobnicate"] ∧
    (∀ target rest, (["frobnicate"] : List String) = "sudo" :: "-u" :: target :: rest →
      rest ≠ [] →
      ∃ parts2, shlexSplit (String.intercalate " " rest) = Except.ok parts2) ∧
    ∃ st' r, run ⟨[], []⟩ "alice" "frobnicate" 0 "s" = Except.ok (st', r) :=
  ⟨rfl, fun _ _ hEq _ => by simp at hEq,
   C1_run_fail_soft ⟨[], []⟩ "alice" "frobnicate" 0 "s" ["frobnicate"] rfl
     (fun _ _ hEq _ => by simp at hEq)⟩

/-- C1 (counterexample): `run` with an unbalanced quote raises the
tokenizer's `ValueError` to its caller instead of returning a result
string, so the claim quantified over every command-line string is false. -/
theorem C1_counterexample :
    run ⟨[], []⟩ "alice" "say \"x" 0 "s" = Except.error "No closing quotation" :=
  rfl
